import Mathlib

/-!
Formal model of the cocotemu bridge layer: the wire codecs (`protocol.py`,
`gpio_protocol.py`), the GPIO execution bridge (`gpio_bridge.py`), the QEMU
memory bridge (`qemu_bridge.py`) and the synchronous GPIO client
(`gpio_client.py`).  Python byte strings are modelled as `List Nat` (each
element a byte value), Python exceptions as the inductive `PyExc`, fallible
operations as `Except PyExc`, and the cross-thread `queue.Queue` objects as
the structure `PyQueue`.
-/

/-- Python exception kinds that the modelled code can raise.  `structError`
is `struct.error` (from `struct.pack` / `struct.unpack`), the others map to
the builtin exceptions with the same names. -/
inductive PyExc where
  | structError
  | valueError
  | indexError
  | overflowError
  | runtimeError
  | assertionError
  | unicodeError
  | connectionError
  | osError
deriving DecidableEq

/-- Model of Python `queue.Queue`: `maxsize` 0 means unbounded (the default
of `queue.Queue()`), `items` is the FIFO content, front at the head. -/
structure PyQueue (α : Type) where
  maxsize : Nat
  items : List α
deriving DecidableEq

/-- Construction `queue.Queue()` with the default `maxsize=0` (unbounded). -/
def PyQueue.new {α : Type} : PyQueue α := ⟨0, []⟩

/-- Python `Queue.full()`: true only for a bounded queue at capacity.  A
blocking `put` waits exactly while the queue is full, so `full = false`
means a `put` returns without blocking. -/
def PyQueue.full {α : Type} (q : PyQueue α) : Bool :=
  decide (0 < q.maxsize ∧ q.maxsize ≤ q.items.length)

/-- A completed `Queue.put(a)`: appends at the tail. -/
def PyQueue.put {α : Type} (q : PyQueue α) (a : α) : PyQueue α :=
  ⟨q.maxsize, q.items ++ [a]⟩

/-- A completed `Queue.get()`: removes from the front (FIFO); `none` means
the call would block on an empty queue. -/
def PyQueue.get? {α : Type} (q : PyQueue α) : Option (α × PyQueue α) :=
  match q.items with
  | [] => none
  | a :: rest => some (a, ⟨q.maxsize, rest⟩)

/-- Value of a little-endian byte string (`int.from_bytes(l, "little")`,
also the value recovered by `struct.unpack` of an unsigned field). -/
def bytesLEtoNat (l : List Nat) : Nat :=
  l.foldr (fun b acc => b + 256 * acc) 0

/-- Little-endian encoding of `v` on `s` bytes, the semantics of
`v.to_bytes(s, byteorder="little")` when `v < 256 ^ s`. -/
def natToLE : Nat → Nat → List Nat
  | 0, _ => []
  | s + 1, v => v % 256 :: natToLE s (v / 256)

/-! ## protocol.py — the 18-byte QEMU mmio_stub wire protocol -/

/-- `MmioOp` from protocol.py: `READ = 0`, `WRITE = 1`. -/
inductive MmioOp where
  | READ
  | WRITE
deriving DecidableEq

/-- Wire value of an `MmioOp`. -/
def MmioOp.toNat : MmioOp → Nat
  | .READ => 0
  | .WRITE => 1

/-- `MmioRequest` dataclass from protocol.py. -/
structure MmioRequest where
  op : MmioOp
  size : Nat
  addr : Nat
  val : Nat := 0
deriving DecidableEq

/-- `WRITE_ACK = b"\x01"` from protocol.py. -/
def WRITE_ACK : List Nat := [0x01]

/-- `HDR_SIZE = struct.calcsize("<BBQQ") = 18`. -/
def HDR_SIZE : Nat := 18

/-- `MmioRequest.unpack` from protocol.py: `struct.unpack("<BBQQ", data)`
raises `struct.error` unless `data` is exactly 18 bytes, then `MmioOp(op)`
raises `ValueError` when the opcode byte is neither 0 nor 1. -/
def MmioRequest.unpack (data : List Nat) : Except PyExc MmioRequest :=
  if data.length = HDR_SIZE then
    let op := data.getD 0 0
    if op = 0 then
      .ok ⟨.READ, data.getD 1 0, bytesLEtoNat ((data.drop 2).take 8),
           bytesLEtoNat ((data.drop 10).take 8)⟩
    else if op = 1 then
      .ok ⟨.WRITE, data.getD 1 0, bytesLEtoNat ((data.drop 2).take 8),
           bytesLEtoNat ((data.drop 10).take 8)⟩
    else
      .error .valueError
  else
    .error .structError

/-! ## gpio_protocol.py — constants and descriptors -/

/-- `GpioDir` from gpio_protocol.py: `IN = 0x00`, `OUT = 0x01`. -/
inductive GpioDir where
  | IN
  | OUT
deriving DecidableEq

/-- Wire value of a `GpioDir`. -/
def GpioDir.toNat : GpioDir → Nat
  | .IN => 0
  | .OUT => 1

def GpioOp.LIST : Nat := 0x01
def GpioOp.GET : Nat := 0x02
def GpioOp.SET : Nat := 0x03
def GpioOp.SUBSCRIBE : Nat := 0x04
def GpioOp.UNSUB : Nat := 0x05

def GpioResp.LIST_RESP : Nat := 0x81
def GpioResp.VALUE : Nat := 0x82
def GpioResp.ACK : Nat := 0x83
def GpioResp.ERR : Nat := 0x84

def GpioErr.BAD_INDEX : Nat := 0x01
def GpioErr.WRONG_DIRECTION : Nat := 0x02
def GpioErr.BAD_OPCODE : Nat := 0x03

/-- `GpioSignal` descriptor from gpio_protocol.py; the cocotb handle is not
part of the descriptor model — the current handle values live in
`GpioState.values`, index-aligned with `GpioState.signals`. -/
structure GpioSig where
  name : String
  width : Nat
  direction : GpioDir
deriving DecidableEq

/-- State touched by the GPIO bridge's sim-thread code: the descriptor list
and the handle values (the device side), plus `_subscriptions` (a Python
set of indices, modelled as a duplicate-free list) and `_last_values`
(a dict, modelled as an association list). -/
structure GpioState where
  signals : List GpioSig
  values : List Nat
  subscriptions : List Nat
  last_values : List (Nat × Nat)
deriving DecidableEq

/-- Dict read `d.get(k)` on the `_last_values` association list. -/
def cacheGet (c : List (Nat × Nat)) (k : Nat) : Option Nat :=
  (c.find? (fun p => p.1 == k)).map (fun p => p.2)

/-- Dict write `d[k] = v` on the `_last_values` association list. -/
def cacheSet (c : List (Nat × Nat)) (k v : Nat) : List (Nat × Nat) :=
  if c.any (fun p => p.1 == k) then
    c.map (fun p => if p.1 == k then (k, v) else p)
  else
    c ++ [(k, v)]

/-- Dict removal `d.pop(k, None)`. -/
def cacheDrop (c : List (Nat × Nat)) (k : Nat) : List (Nat × Nat) :=
  c.filter (fun p => p.1 != k)

/-- Set insertion `s.add(k)`. -/
def subAdd (s : List Nat) (k : Nat) : List Nat :=
  if s.contains k then s else s ++ [k]

/-- Set removal `s.discard(k)`. -/
def subDiscard (s : List Nat) (k : Nat) : List Nat :=
  s.filter (fun x => x != k)

/-- `struct.pack("<BBi", b0, b1, v)`: two unsigned bytes followed by a
signed little-endian 32-bit integer.  `struct.error` is raised when a `B`
argument exceeds 255 or the `i` argument is outside `[-2^31, 2^31 - 1]`. -/
def packBBi (b0 b1 : Nat) (v : Int) : Except PyExc (List Nat) :=
  if b0 ≤ 255 ∧ b1 ≤ 255 ∧ -(2 ^ 31 : Int) ≤ v ∧ v ≤ 2 ^ 31 - 1 then
    .ok ([b0, b1] ++ natToLE 4 (v.emod (2 ^ 32)).toNat)
  else
    .error .structError

/-! ## gpio_bridge.py — sim-thread request handling and sampler -/

/-- ASCII encoding `name.encode("ascii")`: each character must be below
128 or `UnicodeEncodeError` is raised. -/
def asciiBytes (s : String) : Except PyExc (List Nat) :=
  let l := s.toList.map Char.toNat
  if l.all (fun b => b < 128) then .ok l else .error .unicodeError

/-- `GpioBridge._build_list_resp`: `[LIST_RESP, count]` followed, per
signal, by `[name_len] ++ name ++ [width, direction]`.  `bytearray`
appends raise `ValueError` for values above 255. -/
def GpioBridge.build_list_resp (signals : List GpioSig) : Except PyExc (List Nat) :=
  if signals.length ≤ 255 then
    signals.foldlM
      (fun acc sig => do
        let nb ← asciiBytes sig.name
        if nb.length ≤ 255 ∧ sig.width ≤ 255 then
          pure (acc ++ [nb.length] ++ nb ++ [sig.width, sig.direction.toNat])
        else
          throw .valueError)
      [GpioResp.LIST_RESP, signals.length]
  else
    .error .valueError

/-- `GpioBridge._handle_request` from gpio_bridge.py lines 100-157.  The
returned list collects the `_resp_queue.put` calls of the handled request
in order; an `Except.error` means the branch raised before completing (in
which case nothing was put and the sim poll loop dies). -/
def GpioBridge.handle_request (st : GpioState) (op : Nat) (payload : List Nat) :
    Except PyExc (GpioState × List (List Nat)) :=
  if op = GpioOp.LIST then
    (GpioBridge.build_list_resp st.signals).map (fun msg => (st, [msg]))
  else if op = GpioOp.GET then
    match payload.get? 0 with
    | none => .error .indexError
    | some idx =>
      if st.signals.length ≤ idx then
        .ok (st, [[GpioResp.ERR, GpioErr.BAD_INDEX]])
      else if (st.signals.getD idx ⟨"", 0, .IN⟩).direction ≠ GpioDir.OUT then
        .ok (st, [[GpioResp.ERR, GpioErr.WRONG_DIRECTION]])
      else
        (packBBi GpioResp.VALUE idx (Int.ofNat (st.values.getD idx 0))).map
          (fun msg => (st, [msg]))
  else if op = GpioOp.SET then
    match payload.get? 0 with
    | none => .error .indexError
    | some idx =>
      if st.signals.length ≤ idx then
        .ok (st, [[GpioResp.ERR, GpioErr.BAD_INDEX]])
      else if (st.signals.getD idx ⟨"", 0, .IN⟩).direction ≠ GpioDir.IN then
        .ok (st, [[GpioResp.ERR, GpioErr.WRONG_DIRECTION]])
      else if payload.length < 5 then
        .error .structError
      else
        let v := bytesLEtoNat ((payload.drop 1).take 4)
        .ok ({st with values := st.values.set idx v}, [[GpioResp.ACK]])
  else if op = GpioOp.SUBSCRIBE then
    match payload.get? 0 with
    | none => .error .indexError
    | some idx =>
      if st.signals.length ≤ idx then
        .ok (st, [[GpioResp.ERR, GpioErr.BAD_INDEX]])
      else if (st.signals.getD idx ⟨"", 0, .IN⟩).direction ≠ GpioDir.OUT then
        .ok (st, [[GpioResp.ERR, GpioErr.WRONG_DIRECTION]])
      else
        .ok ({st with
                subscriptions := subAdd st.subscriptions idx,
                last_values := cacheSet st.last_values idx (st.values.getD idx 0)},
             [[GpioResp.ACK]])
  else if op = GpioOp.UNSUB then
    match payload.get? 0 with
    | none => .error .indexError
    | some idx =>
      if st.signals.length ≤ idx then
        .ok (st, [[GpioResp.ERR, GpioErr.BAD_INDEX]])
      else
        .ok ({st with
                subscriptions := subDiscard st.subscriptions idx,
                last_values := cacheDrop st.last_values idx},
             [[GpioResp.ACK]])
  else
    .ok (st, [[GpioResp.ERR, GpioErr.BAD_OPCODE]])

/-- One subscription entry of `GpioBridge._sample_outputs`: read the
current value; on the first observation only prime the cache; on a changed
value update the cache and build the `VALUE` notification (whose
`struct.pack("<BBi", ...)` raises for values outside the signed 32-bit
range — the cache is already updated at that point). -/
def sampleOne (vals : List Nat) (idx : Nat) (cache : List (Nat × Nat)) :
    List (Nat × Nat) × List (List Nat) × Option PyExc :=
  let cur := vals.getD idx 0
  match cacheGet cache idx with
  | none => (cacheSet cache idx cur, [], none)
  | some prev =>
    if cur ≠ prev then
      match packBBi GpioResp.VALUE idx (Int.ofNat cur) with
      | .ok msg => (cacheSet cache idx cur, [msg], none)
      | .error e => (cacheSet cache idx cur, [], some e)
    else
      (cache, [], none)

/-- The `for idx in list(self._subscriptions)` loop of `_sample_outputs`:
an exception aborts the loop, but notifications already put on
`_notify_queue` stay queued. -/
def sampleLoop (vals : List Nat) : List Nat → List (Nat × Nat) →
    List (Nat × Nat) × List (List Nat) × Option PyExc
  | [], cache => (cache, [], none)
  | idx :: rest, cache =>
    match sampleOne vals idx cache with
    | (c1, n1, some e) => (c1, n1, some e)
    | (c1, n1, none) =>
      ((sampleLoop vals rest c1).1, n1 ++ (sampleLoop vals rest c1).2.1,
       (sampleLoop vals rest c1).2.2)

/-- `GpioBridge._sample_outputs`, gpio_bridge.py lines 85-98.  Returns the
updated state, the `_notify_queue.put` messages in order, and the
exception, if any, that escaped the loop. -/
def GpioBridge.sample_outputs (st : GpioState) :
    GpioState × List (List Nat) × Option PyExc :=
  let r := sampleLoop st.values st.subscriptions st.last_values
  ({st with last_values := r.1}, r.2.1, r.2.2)

/-- Queue effects of one iteration of the `GpioBridge.start` poll loop. -/
inductive BridgeEvent where
  | respPut (msg : List Nat)
  | notifPut (msg : List Nat)
deriving DecidableEq

/-- One dispatching iteration of the `GpioBridge.start` poll loop
(gpio_bridge.py lines 63-71): `_handle_request` runs first (putting the
response inside), then `_sample_outputs`.  The event list records the
queue puts in program order. -/
def gpioIteration (st : GpioState) (req : Nat × List Nat) :
    GpioState × List BridgeEvent × Option PyExc :=
  match GpioBridge.handle_request st req.1 req.2 with
  | .error e => (st, [], some e)
  | .ok (st1, resps) =>
    let s := GpioBridge.sample_outputs st1
    (s.1, resps.map BridgeEvent.respPut ++ s.2.1.map BridgeEvent.notifPut, s.2.2)

/-- The `GpioBridge.start` poll loop processing a sequence of dequeued
requests one at a time; an uncaught exception ends the loop. -/
def gpioLoopRun (st : GpioState) : List (Nat × List Nat) →
    GpioState × List BridgeEvent × Option PyExc
  | [] => (st, [], none)
  | r :: rs =>
    let x := gpioIteration st r
    match x.2.2 with
    | some e => (x.1, x.2.1, some e)
    | none =>
      ((gpioLoopRun x.1 rs).1, x.2.1 ++ (gpioLoopRun x.1 rs).2.1,
       (gpioLoopRun x.1 rs).2.2)

/-- The three queues created in `GpioBridge.__init__` (gpio_bridge.py lines
36-38), all `queue.Queue()` with the default `maxsize=0`. -/
structure GpioBridgeQueues where
  req_queue : PyQueue (Nat × List Nat)
  resp_queue : PyQueue (List Nat)
  notify_queue : PyQueue (List Nat)
deriving DecidableEq

/-- `GpioBridge.__init__` queue construction. -/
def GpioBridge.initQueues : GpioBridgeQueues :=
  ⟨PyQueue.new, PyQueue.new, PyQueue.new⟩

/-! ## qemu_bridge.py — bridge state, poll loop, client loop -/

/-- Bridge-level state of `QemuBridge`: the running flag and the two
queues from `QemuBridge.__init__` (qemu_bridge.py lines 35-38).  The
request queue holds `none` for the `None` shutdown sentinel. -/
structure QemuBridgeState where
  running : Bool
  req_queue : PyQueue (Option MmioRequest)
  resp_queue : PyQueue Nat
deriving DecidableEq

/-- `QemuBridge.__init__`: `running = False`, both queues `queue.Queue()`
with the default `maxsize=0`. -/
def QemuBridge.init : QemuBridgeState :=
  ⟨false, PyQueue.new, PyQueue.new⟩

/-- The `QemuBridge.start` poll loop (qemu_bridge.py lines 55-68)
processing the successive non-sentinel requests dequeued from
`_req_queue`: each iteration runs the device operation (`_axi_handler`,
abstracted as a state-passing function on a device state `σ`) to
completion and puts its result on `_resp_queue` before looking at the
next request. -/
def qemuPollRun {σ : Type} (handler : MmioRequest → σ → Nat × σ) (d : σ) :
    List MmioRequest → List Nat × σ
  | [] => ([], d)
  | r :: rs =>
    ((handler r d).1 :: (qemuPollRun handler (handler r d).2 rs).1,
     (qemuPollRun handler (handler r d).2 rs).2)

/-- Outcome classification of one receive attempt in
`QemuBridge._handle_client`, matching the three possible results of
`_recv_exact`: a timeout with zero bytes (`b""`), a full 18-byte header,
or a peer close (`None`). -/
inductive RecvEvent where
  | timeout
  | frame (data : List Nat)
  | closed
deriving DecidableEq

/-- Loop-local state of `QemuBridge._handle_client`: `msg_count`,
`idle_timeouts` and the responses sent so far. -/
structure ClientState where
  msgCount : Nat
  idleTimeouts : Nat
  sent : List (List Nat)
deriving DecidableEq

/-- Initial `_handle_client` state (qemu_bridge.py lines 114-115). -/
def initClient : ClientState := ⟨0, 0, []⟩

/-- How `QemuBridge._handle_client` ends: peer close, the idle-teardown
break, running out of modelled receive events, or an exception not caught
by its `except (ConnectionError, OSError)` clause. -/
inductive SessionExit where
  | clientClosed
  | idleExit
  | outOfEvents
  | uncaughtExc (e : PyExc)
deriving DecidableEq

/-- `max_idle = 3` from qemu_bridge.py line 116. -/
def maxIdle : Nat := 3

/-- The exception classes caught by the `except (ConnectionError, OSError)`
clause of `_handle_client`. -/
def caughtByHandleClient : PyExc → Bool
  | .connectionError => true
  | .osError => true
  | _ => false

/-- Response encoding of `QemuBridge._handle_client` lines 140-144: a READ
answers with `result.to_bytes(size, "little")` (OverflowError when the
result does not fit), a WRITE with the single `WRITE_ACK` byte. -/
def QemuBridge.encodeResp (req : MmioRequest) (result : Nat) : Except PyExc (List Nat) :=
  match req.op with
  | .READ =>
    if result < 256 ^ req.size then .ok (natToLE req.size result)
    else .error .overflowError
  | .WRITE => .ok WRITE_ACK

/-- The `QemuBridge._handle_client` loop (qemu_bridge.py lines 117-144)
over a sequence of receive outcomes.  `dev` abstracts the
request-queue/response-queue rendezvous with the sim thread (put the
request, block for the result).  On a timeout the idle counter is
incremented and the loop breaks once `msg_count > 0` and the counter
reaches `max_idle`; a full frame resets the counter, is unpacked
(uncaught `ValueError` for a bad opcode), counted, dispatched and
answered. -/
def runClient (dev : MmioRequest → Nat) :
    List RecvEvent → ClientState → SessionExit × ClientState
  | [], s => (.outOfEvents, s)
  | .closed :: _, s => (.clientClosed, s)
  | .timeout :: rest, s =>
    if 0 < s.msgCount ∧ maxIdle ≤ s.idleTimeouts + 1 then
      (.idleExit, {s with idleTimeouts := s.idleTimeouts + 1})
    else
      runClient dev rest {s with idleTimeouts := s.idleTimeouts + 1}
  | .frame d :: rest, s =>
    match MmioRequest.unpack d with
    | .error e => (.uncaughtExc e, {s with idleTimeouts := 0})
    | .ok req =>
      match QemuBridge.encodeResp req (dev req) with
      | .error e =>
        (.uncaughtExc e, {s with idleTimeouts := 0, msgCount := s.msgCount + 1})
      | .ok resp =>
        runClient dev rest
          {s with idleTimeouts := 0, msgCount := s.msgCount + 1,
                  sent := s.sent ++ [resp]}

/-- What `QemuBridge._recv_loop` does right after `_handle_client`
returns (qemu_bridge.py lines 103-105): on a normal return it clears the
running flag and puts the `None` sentinel on the request queue; an
uncaught exception skips both and propagates (second component). -/
def QemuBridge.sessionEnd (b : QemuBridgeState) (res : SessionExit) :
    QemuBridgeState × Option PyExc :=
  match res with
  | .uncaughtExc e => (b, some e)
  | _ => ({b with running := false, req_queue := b.req_queue.put none}, none)

/-! ## gpio_client.py — the synchronous client's codec side -/

/-- Response parsing of `GpioClient.get` (gpio_client.py lines 82-89) on
the received byte stream: an `ERR` reply raises `RuntimeError`, any other
non-`VALUE` opcode fails the `assert`, otherwise the value is decoded with
`struct.unpack_from("<I", rest, 1)` — unsigned little-endian. -/
def GpioClient.getParse (stream : List Nat) : Except PyExc Nat :=
  match stream.get? 0 with
  | none => .error .connectionError
  | some op =>
    if op = GpioResp.ERR then .error .runtimeError
    else if op ≠ GpioResp.VALUE then .error .assertionError
    else if stream.length < 6 then .error .connectionError
    else .ok (bytesLEtoNat ((stream.drop 2).take 4))

/-- Request encoding of `GpioClient.set` (gpio_client.py line 94):
`struct.pack("<BBi", GpioOp.SET, idx, value)` — note the signed `i`
format. -/
def GpioClient.setEncode (idx : Nat) (value : Int) : Except PyExc (List Nat) :=
  packBBi GpioOp.SET idx value

/-! ## Concrete states used by the claim theorems -/

/-- A 32-bit DUT output signal, as produced by `cosim._detect_gpio`. -/
def outSig32 : GpioSig := ⟨"gpio_out", 32, .OUT⟩

/-- A 32-bit DUT input signal, as produced by `cosim._detect_gpio`. -/
def inSig32 : GpioSig := ⟨"gpio_in", 32, .IN⟩

/-- Subscribed output signal cached at 0 whose handle now reads `2^31`. -/
def stSampleBig : GpioState := ⟨[outSig32], [2147483648], [0], [(0, 0)]⟩

/-- Output signal whose handle reads `2^31`, no subscriptions. -/
def stGetBig : GpioState := ⟨[outSig32], [2147483648], [], []⟩

/-- Output signal whose handle reads `2^31 - 1`, no subscriptions. -/
def stGetMax : GpioState := ⟨[outSig32], [2147483647], [], []⟩

/-- Input signal driving 0, no subscriptions. -/
def stSetIn : GpioState := ⟨[inSig32], [0], [], []⟩

/-- Subscribed output signal cached at 0 whose handle now reads 1. -/
def stGetSub : GpioState := ⟨[outSig32], [1], [0], [(0, 0)]⟩

/-! ## C1 — the rendezvous queues -/

/-- Claim C1 counterexample: the request queues built by
`GpioBridge.__init__` and `QemuBridge.__init__` are `queue.Queue()` with
`maxsize = 0`, so a producer enqueuing into an occupied channel does not
block (`full()` is false) and after a second put the channel holds two
items — they are not strict single-slot rendezvous channels.  (Reachable
concretely: the transport worker's request is still queued when `stop()`
puts the `None` sentinel.) -/
theorem gpio_qemu_queues_not_single_slot :
    GpioBridge.initQueues.req_queue.maxsize = 0 ∧
    (GpioBridge.initQueues.req_queue.put (GpioOp.GET, [0])).items.length = 1 ∧
    (GpioBridge.initQueues.req_queue.put (GpioOp.GET, [0])).full = false ∧
    ((GpioBridge.initQueues.req_queue.put (GpioOp.GET, [0])).put
        (GpioOp.LIST, [])).items.length = 2 ∧
    QemuBridge.init.req_queue.maxsize = 0 ∧
    (QemuBridge.init.req_queue.put none).full = false ∧
    ((QemuBridge.init.req_queue.put none).put none).items.length = 2 := by
  decide

/-- Claim C1 (amended): every queue created in `GpioBridge.__init__` and
`QemuBridge.__init__` is an unbounded FIFO `queue.Queue()` (`maxsize = 0`):
a put never blocks, occupancy notwithstanding, and items come out in put
order.  The at-most-one-in-flight rendezvous is a protocol discipline of
the producers (each blocks on its paired response before enqueuing again),
not a capacity property of the channels. -/
theorem queues_unbounded_fifo :
    ∀ (items : List (Nat × List Nat)) (a b : Nat × List Nat),
      (GpioBridge.initQueues.req_queue.maxsize = 0 ∧
       GpioBridge.initQueues.resp_queue.maxsize = 0 ∧
       GpioBridge.initQueues.notify_queue.maxsize = 0 ∧
       QemuBridge.init.req_queue.maxsize = 0 ∧
       QemuBridge.init.resp_queue.maxsize = 0) ∧
      (PyQueue.mk 0 items).full = false ∧
      (((PyQueue.mk 0 items).put a).put b).items = items ++ [a, b] ∧
      (PyQueue.mk 0 (a :: items)).get? = some (a, PyQueue.mk 0 items) := by
  intro items a b
  refine ⟨⟨rfl, rfl, rfl, rfl, rfl⟩, ?_, ?_, rfl⟩
  · simp [PyQueue.full]
  · simp [PyQueue.put]

/-! ## C3, C4, C5, C6 — the signed-pack defect on u32 values -/

/-- Claim C3 failing evaluation: with signal 0 subscribed, cached at 0 and
now reading `2^31`, `_sample_outputs` updates the cache, enqueues no
notification, and raises `struct.error` from `struct.pack("<BBi", ...)`
(the value exceeds the signed 32-bit range), killing the poll loop —
instead of enqueuing exactly one `VALUE(0, 2^31)` notification. -/
theorem sampler_struct_error_on_large_value :
    GpioBridge.sample_outputs stSampleBig =
      ({stSampleBig with last_values := [(0, 2147483648)]}, [],
       some PyExc.structError) := by
  rfl

/-- Claim C4 failing evaluation: a fully received `GET(0)` on an
out-direction signal whose handle reads `2^31` makes `_handle_request`
raise `struct.error` before any `_resp_queue.put`, so this request gets
zero responses (and the transport worker blocks forever) — the
exactly-one-response property fails on this input. -/
theorem handle_request_drops_get_on_large_value :
    GpioBridge.handle_request stGetBig GpioOp.GET [0] =
      Except.error PyExc.structError := by
  rfl

/-- Claim C5 boundary evaluation: `GET(0)` on an out-direction signal is
answered with a `VALUE(0, v)` message that `GpioClient.get` decodes back
to `v` for `v = 2^31 - 1`, but for `v = 2^31` (still within the claimed
`u32` range) the bridge raises `struct.error` while packing and no
response is produced. -/
theorem get_roundtrip_u32_boundary :
    GpioBridge.handle_request stGetMax GpioOp.GET [0] =
      Except.ok (stGetMax, [[0x82, 0, 0xFF, 0xFF, 0xFF, 0x7F]]) ∧
    GpioClient.getParse [0x82, 0, 0xFF, 0xFF, 0xFF, 0x7F] =
      Except.ok 2147483647 ∧
    GpioBridge.handle_request {stGetMax with values := [2147483648]}
        GpioOp.GET [0] = Except.error PyExc.structError := by
  exact ⟨rfl, rfl, rfl⟩

/-- Claim C6 boundary evaluation: `GpioClient.set(0, v)` encodes a SET
message that the bridge decodes back to `v`, writes to the handle and
ACKs for `v = 5`, but for `v = 2^31` (still within the claimed `u32`
range) the client's `struct.pack("<BBi", ...)` raises `struct.error` and
no message is ever sent. -/
theorem set_encode_u32_boundary :
    GpioClient.setEncode 0 5 = Except.ok [3, 0, 5, 0, 0, 0] ∧
    GpioBridge.handle_request stSetIn GpioOp.SET [0, 5, 0, 0, 0] =
      Except.ok ({stSetIn with values := [5]}, [[GpioResp.ACK]]) ∧
    GpioClient.setEncode 0 2147483648 = Except.error PyExc.structError := by
  exact ⟨rfl, rfl, rfl⟩

/-! ## C7 — order of response put and sampler inside one iteration -/

/-- Claim C7 counterexample: in the dispatching iteration for `GET(0)` on a
subscribed output signal cached at 0 and now reading 1, the queue events
are the response put first, then the sampler's notification put —
`_handle_request` itself puts the response before `_sample_outputs` runs,
so the sampler's effects do not precede the response enqueue. -/
theorem response_precedes_sampler_cex :
    gpioIteration stGetSub (GpioOp.GET, [0]) =
      ({stGetSub with last_values := [(0, 1)]},
       [BridgeEvent.respPut [0x82, 0, 1, 0, 0, 0],
        BridgeEvent.notifPut [0x82, 0, 1, 0, 0, 0]], none) := by
  rfl

/-- Claim C7 (amended): in every GPIO-bridge scheduler iteration that
dispatches a request, the response matched to that request is pushed onto
the response queue by `_handle_request` itself, and only then does the
sampler run once more on the post-handler state — so every response-queue
put precedes every sampler notification-queue put of that iteration. -/
theorem response_then_sampler_order (st : GpioState) (op : Nat) (pl : List Nat)
    (i j : Nat) (m1 m2 : List Nat)
    (hi : (gpioIteration st (op, pl)).2.1.get? i = some (BridgeEvent.respPut m1))
    (hj : (gpioIteration st (op, pl)).2.1.get? j = some (BridgeEvent.notifPut m2)) :
    i < j ∧
    ∀ st1 resps, GpioBridge.handle_request st op pl = Except.ok (st1, resps) →
      (gpioIteration st (op, pl)).1 = (GpioBridge.sample_outputs st1).1 := by
  cases h : GpioBridge.handle_request st op pl with
  | error e =>
    exfalso
    simp [gpioIteration, h] at hi
  | ok pr =>
    obtain ⟨st1, resps⟩ := pr
    have hev : (gpioIteration st (op, pl)).2.1 =
        resps.map BridgeEvent.respPut ++
          (GpioBridge.sample_outputs st1).2.1.map BridgeEvent.notifPut := by
      simp [gpioIteration, h]
    constructor
    · have hil : i < (resps.map BridgeEvent.respPut).length := by
        by_contra hc
        push_neg at hc
        rw [hev, List.get?_append_right hc] at hi
        have hm := List.get?_mem hi
        simp [List.mem_map] at hm
      have hjl : (resps.map BridgeEvent.respPut).length ≤ j := by
        by_contra hc
        push_neg at hc
        rw [hev, List.get?_append hc] at hj
        have hm := List.get?_mem hj
        simp [List.mem_map] at hm
      omega
    · intro st1' resps' h'
      injection h' with h''
      injection h'' with ha hb
      subst ha
      simp [gpioIteration, h]

/-- Claim C7 witness: the amended ordering theorem applied to the concrete
iteration of the counterexample state. -/
theorem response_then_sampler_order_witness :
    (gpioIteration stGetSub (GpioOp.GET, [0])).2.1.get? 0 =
      some (BridgeEvent.respPut [0x82, 0, 1, 0, 0, 0]) ∧
    (gpioIteration stGetSub (GpioOp.GET, [0])).2.1.get? 1 =
      some (BridgeEvent.notifPut [0x82, 0, 1, 0, 0, 0]) ∧
    (0 : Nat) < 1 :=
  ⟨rfl, rfl,
   (response_then_sampler_order stGetSub GpioOp.GET [0] 0 1
      [0x82, 0, 1, 0, 0, 0] [0x82, 0, 1, 0, 0, 0] rfl rfl).1⟩

/-! ## C2 — serialization of device operations -/

/-- Compositionality of the QEMU poll loop: the processing of any arrival
prefix is committed — device state and responses — before the remaining
requests are looked at. -/
theorem qemuPollRun_append {σ : Type} (handler : MmioRequest → σ → Nat × σ) :
    ∀ (reqs1 reqs2 : List MmioRequest) (d : σ),
      qemuPollRun handler d (reqs1 ++ reqs2) =
        ((qemuPollRun handler d reqs1).1 ++
          (qemuPollRun handler (qemuPollRun handler d reqs1).2 reqs2).1,
         (qemuPollRun handler (qemuPollRun handler d reqs1).2 reqs2).2) := by
  intro reqs1
  induction reqs1 with
  | nil => intro reqs2 d; simp [qemuPollRun]
  | cons r rs ih => intro reqs2 d; simp [qemuPollRun, ih]

/-- Compositionality of the GPIO poll loop on exception-free prefixes. -/
theorem gpioLoopRun_append :
    ∀ (grs1 grs2 : List (Nat × List Nat)) (st : GpioState),
      (gpioLoopRun st grs1).2.2 = none →
      gpioLoopRun st (grs1 ++ grs2) =
        ((gpioLoopRun (gpioLoopRun st grs1).1 grs2).1,
         (gpioLoopRun st grs1).2.1 ++
           (gpioLoopRun (gpioLoopRun st grs1).1 grs2).2.1,
         (gpioLoopRun (gpioLoopRun st grs1).1 grs2).2.2) := by
  intro grs1
  induction grs1 with
  | nil => intro grs2 st _; simp [gpioLoopRun]
  | cons r rs ih =>
    intro grs2 st h
    cases hx : (gpioIteration st r).2.2 with
    | some e =>
      exfalso
      simp [gpioLoopRun, hx] at h
    | none =>
      have h' : (gpioLoopRun (gpioIteration st r).1 rs).2.2 = none := by
        simpa [gpioLoopRun, hx] using h
      simp [gpioLoopRun, hx, ih grs2 (gpioIteration st r).1 h', List.append_assoc]

/-- Claim C2: both execution bridges process the arrival order of the
shared request queue strictly serially.  For the QEMU bridge poll loop:
splitting the arrival list anywhere shows each request's device operation
runs to completion — its state effects committed and its response
enqueued — before the next request is examined; the final device state is
the left fold of the handler over the arrival order; and every request
produces exactly one response, in arrival order.  The same prefix
compositionality holds for the GPIO bridge poll loop on exception-free
prefixes. -/
theorem bridge_serializes_requests {σ : Type} (handler : MmioRequest → σ → Nat × σ)
    (d : σ) (reqs1 reqs2 : List MmioRequest) (st : GpioState)
    (grs1 grs2 : List (Nat × List Nat)) :
    qemuPollRun handler d (reqs1 ++ reqs2) =
      ((qemuPollRun handler d reqs1).1 ++
        (qemuPollRun handler (qemuPollRun handler d reqs1).2 reqs2).1,
       (qemuPollRun handler (qemuPollRun handler d reqs1).2 reqs2).2) ∧
    (qemuPollRun handler d reqs1).2 =
      List.foldl (fun s r => (handler r s).2) d reqs1 ∧
    (qemuPollRun handler d reqs1).1.length = reqs1.length ∧
    ((gpioLoopRun st grs1).2.2 = none →
      gpioLoopRun st (grs1 ++ grs2) =
        ((gpioLoopRun (gpioLoopRun st grs1).1 grs2).1,
         (gpioLoopRun st grs1).2.1 ++
           (gpioLoopRun (gpioLoopRun st grs1).1 grs2).2.1,
         (gpioLoopRun (gpioLoopRun st grs1).1 grs2).2.2)) := by
  refine ⟨qemuPollRun_append handler reqs1 reqs2 d, ?_, ?_,
    gpioLoopRun_append grs1 grs2 st⟩
  · induction reqs1 generalizing d with
    | nil => simp [qemuPollRun]
    | cons r rs ih => simp [qemuPollRun, List.foldl_cons, ih]
  · induction reqs1 generalizing d with
    | nil => simp [qemuPollRun]
    | cons r rs ih => simp [qemuPollRun, ih]

/-- Claim C2 witness: the serialization theorem instantiated on a concrete
device handler, device state and request lists, every hypothesis
discharged by evaluation. -/
theorem bridge_serializes_requests_witness :
    qemuPollRun (fun r (n : Nat) => (r.addr + n, n + 1)) 0
        ([⟨MmioOp.READ, 1, 5, 0⟩] ++ [⟨MmioOp.WRITE, 1, 7, 1⟩]) = ([5, 8], 2) ∧
    gpioLoopRun stSetIn
        ([(GpioOp.SET, [0, 5, 0, 0, 0])] ++ [(GpioOp.UNSUB, [0])]) =
      ((gpioLoopRun (gpioLoopRun stSetIn [(GpioOp.SET, [0, 5, 0, 0, 0])]).1
          [(GpioOp.UNSUB, [0])]).1,
       (gpioLoopRun stSetIn [(GpioOp.SET, [0, 5, 0, 0, 0])]).2.1 ++
         (gpioLoopRun (gpioLoopRun stSetIn [(GpioOp.SET, [0, 5, 0, 0, 0])]).1
            [(GpioOp.UNSUB, [0])]).2.1,
       (gpioLoopRun (gpioLoopRun stSetIn [(GpioOp.SET, [0, 5, 0, 0, 0])]).1
          [(GpioOp.UNSUB, [0])]).2.2) := by
  constructor
  · have h := (bridge_serializes_requests (fun r (n : Nat) => (r.addr + n, n + 1)) 0
      [⟨MmioOp.READ, 1, 5, 0⟩] [⟨MmioOp.WRITE, 1, 7, 1⟩] stSetIn [] []).1
    rw [h]; rfl
  · exact (bridge_serializes_requests (fun r (n : Nat) => (r.addr + n, n + 1)) 0
      [] [] stSetIn [(GpioOp.SET, [0, 5, 0, 0, 0])] [(GpioOp.UNSUB, [0])]).2.2.2
      (by rfl)

/-! ## C9 — memory-protocol response bytes -/

/-- The little-endian encoding always has exactly `s` bytes. -/
theorem natToLE_length : ∀ (s v : Nat), (natToLE s v).length = s := by
  intro s
  induction s with
  | zero => intro v; rfl
  | succ n ih => intro v; simp [natToLE, ih]

/-- Every emitted byte is below 256. -/
theorem natToLE_lt256 : ∀ (s v b : Nat), b ∈ natToLE s v → b < 256 := by
  intro s
  induction s with
  | zero => intro v b hb; simp [natToLE] at hb
  | succ n ih =>
    intro v b hb
    simp only [natToLE, List.mem_cons] at hb
    cases hb with
    | inl h => subst h; exact Nat.mod_lt _ (by omega)
    | inr h => exact ih _ _ h

/-- Decoding the little-endian encoding recovers the value when it fits. -/
theorem bytesLEtoNat_natToLE : ∀ (s v : Nat), v < 256 ^ s →
    bytesLEtoNat (natToLE s v) = v := by
  intro s
  induction s with
  | zero =>
    intro v hv
    have : v = 0 := by simpa using hv
    simp [this, natToLE, bytesLEtoNat]
  | succ n ih =>
    intro v hv
    have hdiv : v / 256 < 256 ^ n := by
      rw [Nat.div_lt_iff_lt_mul (by omega : 0 < 256)]
      calc v < 256 ^ (n + 1) := hv
        _ = 256 ^ n * 256 := by rw [pow_succ]
    simp only [natToLE, bytesLEtoNat, List.foldr_cons]
    rw [show List.foldr (fun b acc => b + 256 * acc) 0 (natToLE n (v / 256)) =
          bytesLEtoNat (natToLE n (v / 256)) from rfl, ih _ hdiv]
    exact Nat.mod_add_div v 256

/-- A byte list with all bytes below 256 is the little-endian encoding of
its own value: the encoding of a given length is unique. -/
theorem bytesLEtoNat_inj : ∀ (l : List Nat), (∀ b ∈ l, b < 256) →
    l = natToLE l.length (bytesLEtoNat l) := by
  intro l
  induction l with
  | nil => intro _; rfl
  | cons b tl ih =>
    intro hb
    have hb0 : b < 256 := hb b (List.mem_cons_self b tl)
    have htl : ∀ x ∈ tl, x < 256 := fun x hx => hb x (List.mem_cons_of_mem b hx)
    simp only [bytesLEtoNat, List.foldr_cons, List.length_cons, natToLE]
    have hmod : (b + 256 * List.foldr (fun x acc => x + 256 * acc) 0 tl) % 256 = b := by
      rw [Nat.add_mul_mod_self_left, Nat.mod_eq_of_lt hb0]
    have hdiv : (b + 256 * List.foldr (fun x acc => x + 256 * acc) 0 tl) / 256 =
        List.foldr (fun x acc => x + 256 * acc) 0 tl := by
      rw [Nat.add_mul_div_left _ _ (by omega : 0 < 256), Nat.div_eq_of_lt hb0,
          Nat.zero_add]
    rw [hmod, hdiv]
    exact congrArg (b :: ·) (ih htl)

/-- Claim C9: for every memory-protocol Read whose device result fits in
`size` bytes, `_handle_client` sends back exactly the `size`-byte
little-endian encoding of the result (right length, bytes below 256, value
recovered by little-endian decoding, and unique such encoding); for every
Write it sends exactly the single acknowledgement byte `0x01`. -/
theorem qemu_response_encoding (req : MmioRequest) (r : Nat) :
    (req.op = MmioOp.READ → r < 256 ^ req.size →
      QemuBridge.encodeResp req r = Except.ok (natToLE req.size r) ∧
      (natToLE req.size r).length = req.size ∧
      bytesLEtoNat (natToLE req.size r) = r ∧
      (∀ b ∈ natToLE req.size r, b < 256) ∧
      (∀ l : List Nat, l.length = req.size → (∀ b ∈ l, b < 256) →
        bytesLEtoNat l = r → l = natToLE req.size r)) ∧
    (req.op = MmioOp.WRITE →
      QemuBridge.encodeResp req r = Except.ok WRITE_ACK ∧ WRITE_ACK.length = 1) := by
  constructor
  · intro hop hr
    refine ⟨?_, natToLE_length req.size r, bytesLEtoNat_natToLE req.size r hr,
      fun b hb => natToLE_lt256 req.size r b hb, ?_⟩
    · simp [QemuBridge.encodeResp, hop, hr]
    · intro l hl hb hv
      have := bytesLEtoNat_inj l hb
      rw [hl, hv] at this
      exact this
  · intro hop
    exact ⟨by simp [QemuBridge.encodeResp, hop], rfl⟩

/-- Claim C9 witness: the encoding theorem applied to a concrete 4-byte
Read of value 0x12345678 and a concrete Write. -/
theorem qemu_response_encoding_witness :
    QemuBridge.encodeResp ⟨MmioOp.READ, 4, 0, 0⟩ 305419896 =
      Except.ok [0x78, 0x56, 0x34, 0x12] ∧
    bytesLEtoNat [0x78, 0x56, 0x34, 0x12] = 305419896 ∧
    QemuBridge.encodeResp ⟨MmioOp.WRITE, 4, 0, 7⟩ 0 = Except.ok WRITE_ACK :=
  ⟨((qemu_response_encoding ⟨MmioOp.READ, 4, 0, 0⟩ 305419896).1 rfl
      (by decide)).1,
   ((qemu_response_encoding ⟨MmioOp.READ, 4, 0, 0⟩ 305419896).1 rfl
      (by decide)).2.2.1,
   ((qemu_response_encoding ⟨MmioOp.WRITE, 4, 0, 7⟩ 0).2 rfl).1⟩

/-! ## C10 — malformed opcode aborts connection handling -/

/-- Claim C10: any 18-byte memory-protocol frame whose opcode byte is
neither 0 nor 1 makes `MmioRequest.unpack` raise `ValueError`; that class
is not in `_handle_client`'s `except (ConnectionError, OSError)` clause,
so the frame aborts connection handling with an uncaught exception and the
client receives no response for it. -/
theorem unpack_bad_opcode_uncaught (d : List Nat) (h18 : d.length = 18)
    (h0 : d.getD 0 0 ≠ 0) (h1 : d.getD 0 0 ≠ 1) (dev : MmioRequest → Nat)
    (s : ClientState) :
    MmioRequest.unpack d = Except.error PyExc.valueError ∧
    caughtByHandleClient PyExc.valueError = false ∧
    runClient dev [RecvEvent.frame d] s =
      (SessionExit.uncaughtExc PyExc.valueError, {s with idleTimeouts := 0}) ∧
    (runClient dev [RecvEvent.frame d] s).2.sent = s.sent := by
  have hu : MmioRequest.unpack d = Except.error PyExc.valueError := by
    unfold MmioRequest.unpack
    rw [if_pos (show d.length = HDR_SIZE from h18), if_neg h0, if_neg h1]
  refine ⟨hu, rfl, ?_, ?_⟩
  · simp [runClient, hu]
  · simp [runClient, hu]

/-- Claim C10 witness: the theorem applied to the concrete frame whose
opcode byte is 2. -/
theorem unpack_bad_opcode_uncaught_witness :
    MmioRequest.unpack (2 :: List.replicate 17 0) =
      Except.error PyExc.valueError ∧
    runClient (fun _ => 0) [RecvEvent.frame (2 :: List.replicate 17 0)]
        initClient =
      (SessionExit.uncaughtExc PyExc.valueError, initClient) := by
  have h := unpack_bad_opcode_uncaught (2 :: List.replicate 17 0) (by decide)
    (by decide) (by decide) (fun _ => 0) initClient
  exact ⟨h.1, h.2.2.1⟩

/-! ## C8 — idle teardown of the memory-protocol bridge -/

/-- A fully processed event prefix composes with the rest of the client
loop. -/
theorem runClient_append (dev : MmioRequest → Nat) :
    ∀ (evs1 evs2 : List RecvEvent) (s s' : ClientState),
      runClient dev evs1 s = (SessionExit.outOfEvents, s') →
      runClient dev (evs1 ++ evs2) s = runClient dev evs2 s' := by
  intro evs1
  induction evs1 with
  | nil =>
    intro evs2 s s' h
    have hs : s = s' := congrArg Prod.snd h
    subst hs
    rfl
  | cons e rest ih =>
    intro evs2 s s' h
    cases e with
    | closed => simp [runClient] at h
    | timeout =>
      by_cases hc : 0 < s.msgCount ∧ maxIdle ≤ s.idleTimeouts + 1
      · simp [runClient, hc] at h
      · have h' : runClient dev rest {s with idleTimeouts := s.idleTimeouts + 1} =
            (SessionExit.outOfEvents, s') := by
          simpa [runClient, hc] using h
        simpa [runClient, hc] using ih evs2 _ s' h'
    | frame d =>
      cases hu : MmioRequest.unpack d with
      | error e' => simp [runClient, hu] at h
      | ok req =>
        cases he : QemuBridge.encodeResp req (dev req) with
        | error e' => simp [runClient, hu, he] at h
        | ok resp =>
          have h' : runClient dev rest
              {s with idleTimeouts := 0, msgCount := s.msgCount + 1,
                      sent := s.sent ++ [resp]} =
              (SessionExit.outOfEvents, s') := by
            simpa [runClient, hu, he] using h
          simpa [runClient, hu, he] using ih evs2 _ s' h'

/-- Soundness half of the idle-teardown characterization, generalized over
the starting loop state: an idle exit either consumes the timeouts still
missing from the initial counter, or happens three consecutive timeouts
after a point with at least one exchanged message and a freshly reset
counter. -/
theorem idle_exit_sound (dev : MmioRequest → Nat) :
    ∀ (evs : List RecvEvent) (s : ClientState),
      (runClient dev evs s).1 = SessionExit.idleExit →
      (0 < s.msgCount ∧ ∃ q, evs =
        List.replicate (max (maxIdle - s.idleTimeouts) 1) RecvEvent.timeout ++ q) ∨
      (∃ p q s', evs =
          p ++ [RecvEvent.timeout, RecvEvent.timeout, RecvEvent.timeout] ++ q ∧
        runClient dev p s = (SessionExit.outOfEvents, s') ∧
        0 < s'.msgCount ∧ s'.idleTimeouts = 0) := by
  intro evs
  induction evs with
  | nil => intro s h; simp [runClient] at h
  | cons e rest ih =>
    intro s h
    cases e with
    | closed => simp [runClient] at h
    | timeout =>
      by_cases hc : 0 < s.msgCount ∧ maxIdle ≤ s.idleTimeouts + 1
      · left
        refine ⟨hc.1, rest, ?_⟩
        have hk : max (maxIdle - s.idleTimeouts) 1 = 1 := by
          have := hc.2
          simp [maxIdle] at this ⊢
          omega
        rw [hk]
        rfl
      · have h' : (runClient dev rest
            {s with idleTimeouts := s.idleTimeouts + 1}).1 =
            SessionExit.idleExit := by
          simpa [runClient, hc] using h
        cases ih _ h' with
        | inl hl =>
          obtain ⟨hm, q, hq⟩ := hl
          left
          have hms : 0 < s.msgCount := hm
          refine ⟨hms, q, ?_⟩
          have hlt : s.idleTimeouts + 1 < maxIdle := by
            simp [maxIdle] at hc ⊢
            omega
          have hk : max (maxIdle - s.idleTimeouts) 1 =
              max (maxIdle - (s.idleTimeouts + 1)) 1 + 1 := by
            simp [maxIdle] at hlt ⊢
            omega
          rw [hk, List.replicate_succ]
          simp only [List.cons_append]
          exact congrArg (RecvEvent.timeout :: ·) hq
        | inr hr =>
          obtain ⟨p, q, s', hsplit, hrun, hm, hi0⟩ := hr
          right
          refine ⟨RecvEvent.timeout :: p, q, s', by simp [hsplit], ?_, hm, hi0⟩
          simpa [runClient, hc] using hrun
    | frame d =>
      cases hu : MmioRequest.unpack d with
      | error e' => simp [runClient, hu] at h
      | ok req =>
        cases he : QemuBridge.encodeResp req (dev req) with
        | error e' => simp [runClient, hu, he] at h
        | ok resp =>
          have h' : (runClient dev rest
              {s with idleTimeouts := 0, msgCount := s.msgCount + 1,
                      sent := s.sent ++ [resp]}).1 = SessionExit.idleExit := by
            simpa [runClient, hu, he] using h
          cases ih _ h' with
          | inl hl =>
            obtain ⟨-, q, hq⟩ := hl
            right
            refine ⟨[RecvEvent.frame d], q,
              {s with idleTimeouts := 0, msgCount := s.msgCount + 1,
                      sent := s.sent ++ [resp]}, ?_, ?_, by simp, rfl⟩
            · have hk : max (maxIdle - 0) 1 = 3 := by simp [maxIdle]
              simp only [hk] at hq
              simp only [List.singleton_append, List.cons_append]
              exact congrArg (RecvEvent.frame d :: ·) (by simpa [List.replicate] using hq)
            · simp [runClient, hu, he]
          | inr hr =>
            obtain ⟨p, q, s', hsplit, hrun, hm, hi0⟩ := hr
            right
            refine ⟨RecvEvent.frame d :: p, q, s', by simp [hsplit], ?_, hm, hi0⟩
            simpa [runClient, hu, he] using hrun

/-- Completeness half: from any fully processed prefix with at least one
message and a reset idle counter, three consecutive timeouts force the
idle exit. -/
theorem idle_exit_complete (dev : MmioRequest → Nat) (p q : List RecvEvent)
    (s' : ClientState)
    (hp : runClient dev p initClient = (SessionExit.outOfEvents, s'))
    (hm : 0 < s'.msgCount) (hi : s'.idleTimeouts = 0) :
    (runClient dev
        (p ++ [RecvEvent.timeout, RecvEvent.timeout, RecvEvent.timeout] ++ q)
        initClient).1 = SessionExit.idleExit := by
  rw [List.append_assoc] at *
  rw [runClient_append dev p _ initClient s' hp]
  obtain ⟨m, it, snt⟩ := s'
  simp only at hm hi
  subst hi
  simp [runClient, maxIdle, hm]

/-- A connection on which no full message was ever received can never take
the idle-teardown exit. -/
theorem no_frames_no_idle (dev : MmioRequest → Nat) :
    ∀ (evs : List RecvEvent) (s : ClientState), s.msgCount = 0 →
      (∀ d, RecvEvent.frame d ∉ evs) →
      (runClient dev evs s).1 ≠ SessionExit.idleExit := by
  intro evs
  induction evs with
  | nil => intro s _ _ h; simp [runClient] at h
  | cons e rest ih =>
    intro s hm hf h
    cases e with
    | closed => simp [runClient] at h
    | timeout =>
      have hc : ¬(0 < s.msgCount ∧ maxIdle ≤ s.idleTimeouts + 1) := by
        rw [hm]
        rintro ⟨h1, -⟩
        omega
      have h' : (runClient dev rest
          {s with idleTimeouts := s.idleTimeouts + 1}).1 =
          SessionExit.idleExit := by
        simpa [runClient, hc] using h
      exact ih {s with idleTimeouts := s.idleTimeouts + 1} hm
        (fun d hd => hf d (List.mem_cons_of_mem _ hd)) h'
    | frame d => exact hf d (List.mem_cons_self _ _)

/-- Claim C8: the memory-protocol connection loop takes its idle exit
exactly when three consecutive zero-byte read timeouts accumulate after a
point where at least one full message has been exchanged and the
consecutive-timeout counter was reset (every full frame resets it); a
connection that never received a full message never takes the idle exit;
and after a session ends by idle exit or client disconnect, `_recv_loop`
shuts the whole bridge down — `running` cleared and the `None` sentinel
put on the request queue. -/
theorem qemu_idle_teardown_policy (dev : MmioRequest → Nat)
    (evs : List RecvEvent) (b : QemuBridgeState) :
    ((runClient dev evs initClient).1 = SessionExit.idleExit ↔
      ∃ p q s', evs =
          p ++ [RecvEvent.timeout, RecvEvent.timeout, RecvEvent.timeout] ++ q ∧
        runClient dev p initClient = (SessionExit.outOfEvents, s') ∧
        0 < s'.msgCount ∧ s'.idleTimeouts = 0) ∧
    ((∀ d, RecvEvent.frame d ∉ evs) →
      (runClient dev evs initClient).1 ≠ SessionExit.idleExit) ∧
    (∀ r, r = SessionExit.clientClosed ∨ r = SessionExit.idleExit →
      (QemuBridge.sessionEnd b r).1.running = false ∧
      (QemuBridge.sessionEnd b r).1.req_queue.items.getLast? = some none) := by
  refine ⟨⟨?_, ?_⟩, ?_, ?_⟩
  · intro h
    cases idle_exit_sound dev evs initClient h with
    | inl hl => exact absurd hl.1 (by simp [initClient])
    | inr hr => exact hr
  · rintro ⟨p, q, s', rfl, hrun, hm, hi⟩
    exact idle_exit_complete dev p q s' hrun hm hi
  · exact no_frames_no_idle dev evs initClient rfl
  · rintro r (rfl | rfl) <;>
      exact ⟨rfl, by simp [QemuBridge.sessionEnd, PyQueue.put]⟩

/-- Claim C8 witness: after one good frame, three consecutive timeouts
take the idle exit, obtained by applying the characterization to the
concrete event list. -/
theorem qemu_idle_teardown_policy_witness :
    (runClient (fun _ => 0)
        [RecvEvent.frame (0 :: 1 :: List.replicate 16 0), RecvEvent.timeout,
         RecvEvent.timeout, RecvEvent.timeout] initClient).1 =
      SessionExit.idleExit :=
  (qemu_idle_teardown_policy (fun _ => 0)
      [RecvEvent.frame (0 :: 1 :: List.replicate 16 0), RecvEvent.timeout,
       RecvEvent.timeout, RecvEvent.timeout] QemuBridge.init).1.2
    ⟨[RecvEvent.frame (0 :: 1 :: List.replicate 16 0)], [], ⟨1, 0, [[0]]⟩,
     by decide, by decide, by decide, rfl⟩
